import Mathlib

/-!
Shallow embedding of the `errors` package (error annotation library with
stack capture): data model, construction entry points (`New`, `Errorf`,
`Wrap`, `Wrapf`, `WithMessage`), unwrapping, and the `fmt`-verb rendering
of `fundamental` and `wrappedError` values, together with the Frame /
StackTrace rendering used by the detailed verb.

The host runtime's stack introspection (`runtime.Callers`,
`runtime.FuncForPC`) is out of scope of the library and is modelled as an
opaque resolver / capture environment.  Rendering is modelled in the
imperative style of the source: each `Format` method appends to an output
buffer (`fmt.State` with `io.WriteString`), so that purity of rendering is
a theorem rather than a modelling assumption.
-/

/-- Symbolic information for one resolved call site: qualified function
name, full file path and line number. -/
structure FrameInfo where
  name : String
  file : String
  line : Nat
deriving DecidableEq

/-- Modelled from the spec: the AddressResolver capability of the host
runtime ("given an address, return (function name, file, line)").  The
code that consults it (`Frame.pc`, `runtime.FuncForPC`) lives in the
repository's stack file, which is not part of the sources here; `none`
plays the role of `runtime.FuncForPC` returning `nil`. -/
structure Resolver where
  resolve : Nat → Option FrameInfo

/-- Modelled from the spec: a sentinel/zero Frame address never resolves;
resolution of it must degrade gracefully, never fail. -/
def resolveFrame (R : Resolver) (f : Nat) : Option FrameInfo :=
  if f = 0 then none else R.resolve f

/-- Characters of the final component of a character list split at the
given separator (everything after the last occurrence, the whole list
when the separator does not occur). -/
def lastComponentAux (sep : Char) (cur : List Char) : List Char → List Char
  | [] => cur
  | c :: rest =>
    if c = sep then lastComponentAux sep [] rest
    else lastComponentAux sep (cur ++ [c]) rest

/-- Characters after the first occurrence of the given separator, or
`none` when it does not occur. -/
def afterFirstAux (sep : Char) : List Char → Option (List Char)
  | [] => none
  | c :: rest => if c = sep then some rest else afterFirstAux sep rest

/-- Modelled from the spec: `shortFuncName` (the source's `funcname`,
exercised by `TestFuncname`): drop everything up to the last path
separator, then everything up to and including the first dot of what
remains. -/
def funcname (name : String) : String :=
  let afterSlash := lastComponentAux '/' [] name.data
  String.mk ((afterFirstAux '.' afterSlash).getD afterSlash)

/-- Base name of a file path: the final component after the last path
separator (the `path.Base` call of the short source verb). -/
def pathBase (p : String) : String :=
  String.mk (lastComponentAux '/' [] p.data)

/-- Format verbs accepted by `Frame.Format` and `StackTrace.Format`:
short source, full source, line, name, composite, composite detailed. -/
inductive FrameVerb where
  | s | plusS | d | n | v | plusV
deriving DecidableEq

/-- Resolved file of a frame, "unknown" when the address does not
resolve. -/
def frameFile (R : Resolver) (f : Nat) : String :=
  match resolveFrame R f with
  | none => "unknown"
  | some i => i.file

/-- Resolved line of a frame, 0 when the address does not resolve. -/
def frameLine (R : Resolver) (f : Nat) : Nat :=
  match resolveFrame R f with
  | none => 0
  | some i => i.line

/-- Modelled from the spec: `Frame.Format` (in the repository's stack
file, not among these sources; behaviour fixed by the spec's verb table
and exercised by `TestFrameFormat`).  An unresolvable address yields
"unknown" for the source verbs, the empty name for the name verb and
line 0. -/
def frameFormat (R : Resolver) (f : Nat) : FrameVerb → String
  | .s => pathBase (frameFile R f)
  | .plusS =>
    match resolveFrame R f with
    | none => "unknown"
    | some i => i.name ++ "\n\t" ++ i.file
  | .d => toString (frameLine R f)
  | .n =>
    match resolveFrame R f with
    | none => ""
    | some i => funcname i.name
  | .v => pathBase (frameFile R f) ++ ":" ++ toString (frameLine R f)
  | .plusV =>
    (match resolveFrame R f with
     | none => "unknown"
     | some i => i.name ++ "\n\t" ++ i.file) ++ ":" ++ toString (frameLine R f)

/-- Detailed (`%+v`) rendering of a captured stack: each frame rendered
with the composite-detailed verb, preceded by a newline; no other
separator.  This is the text appended by `stack.Format` inside the error
renderers. -/
def stackPlusStr (R : Resolver) : List Nat → String
  | [] => ""
  | pc :: rest => "\n" ++ frameFormat R pc .plusV ++ stackPlusStr R rest

/-- Modelled from the spec: `StackTrace.Format` (repository stack file,
exercised by `TestStackTraceFormat`): without detail flag a bracketed,
space-separated list of frames rendered with the matching verb; with the
detail flag the newline-prefixed frame block.  Verbs the source ignores
render nothing. -/
def stackTraceFormat (R : Resolver) (st : List Nat) : FrameVerb → String
  | .s => "[" ++ String.intercalate " " (st.map (fun pc => frameFormat R pc .s)) ++ "]"
  | .v => "[" ++ String.intercalate " " (st.map (fun pc => frameFormat R pc .v)) ++ "]"
  | .plusV => stackPlusStr R st
  | _ => ""

/-- Behaviour of an external error value that implements `fmt.Formatter`:
what it writes for each of the four supported verbs (cf. the
`myFormatterErr` test type). -/
structure ExtFormatter where
  forS : String
  forV : String
  forPlusV : String
  forQ : String
deriving DecidableEq

/-- Error values in scope of the library: the package's own two node
kinds, the stack-less message wrapper, and arbitrary foreign error values
(characterised by their `Error()` string, whether and how they implement
`fmt.Formatter`, and their `Unwrap` target if they have one). -/
inductive GoError where
  | fundamental (msg : String) (stack : List Nat)
  | wrappedError (err : GoError) (msg : String) (stack : List Nat)
  | withMessage (err : GoError) (msg : String)
  | external (msg : String) (formatter : Option ExtFormatter) (unwrapTarget : Option GoError)

/-- The `Error()` method: `fundamental` returns its message, a
`wrappedError` returns `w.msg + ": " + w.err.Error()`; the `withMessage`
case is modelled from the spec (short form is message, colon, inner short
form); an external error returns its own string. -/
def GoError.Error : GoError → String
  | .fundamental msg _ => msg
  | .wrappedError err msg _ => msg ++ ": " ++ GoError.Error err
  | .withMessage err msg => msg ++ ": " ++ GoError.Error err
  | .external msg _ _ => msg

/-- Standard-library `errors.Unwrap`: the result of the `Unwrap` method
when the dynamic type has one, `nil` otherwise.  `fundamental` has no
`Unwrap` method; `wrappedError.Unwrap` returns the owned inner error;
`withMessage` is modelled from the spec (it owns its inner error);
external errors expose whatever target they declare. -/
def errorsUnwrap : GoError → Option GoError
  | .fundamental _ _ => none
  | .wrappedError err _ _ => some err
  | .withMessage err _ => some err
  | .external _ _ t => t

/-- The `fmt.Formatter` type assertion: both package-defined node kinds
implement `Format`; `withMessage` is modelled from the spec as
self-formatting (it defines its own extended form); an external error
implements it exactly when it carries formatter behaviour. -/
def isFormatter : GoError → Bool
  | .fundamental _ _ => true
  | .wrappedError _ _ _ => true
  | .withMessage _ _ => true
  | .external _ f _ => f.isSome

/-- Escapes of `%q` (`strconv.Quote`) for the characters that occur in
this development; other characters are kept verbatim. -/
def quoteChar (c : Char) : String :=
  if c = '"' then "\\\""
  else if c = '\\' then "\\\\"
  else if c = '\n' then "\\n"
  else if c = '\t' then "\\t"
  else String.singleton c

/-- The quoted form produced by the `%q` verb: a double-quoted,
escaped string literal. -/
def goQuote (s : String) : String :=
  "\"" ++ String.join (s.data.map quoteChar) ++ "\""

/-- Format verbs supported by the error renderers: `%s`, `%q`, `%v` and
`%+v` (other verbs make the source's `Format` switches write nothing and
are omitted). -/
inductive ErrVerb where
  | s | q | v | plusV
deriving DecidableEq

/-- The output sink (`fmt.State`): an append-only text buffer. -/
abbrev FmtState := String

/-- The `io.WriteString(s, x)` primitive: append `x` to the buffer. -/
def writeString (s : FmtState) (x : String) : FmtState := s ++ x

/-- The `w.stack.Format(s, 'v')` call under the `+` flag: write a
newline then the composite-detailed frame for each captured address, in
order. -/
def stackFormatPlusV (R : Resolver) (st : List Nat) (s : FmtState) : FmtState :=
  st.foldl (fun acc pc => writeString (writeString acc "\n") (frameFormat R pc .plusV)) s

/-- The `fmt` dispatch of a verb to an error value, transcribed from the
source `Format` methods.  `fundamental.Format`: `%+v` writes the message
then the stack; `%v`/`%s` write the message; `%q` quotes it.
`wrappedError.Format`: `%+v` writes the message, then branches on
`isRoot := errors.Unwrap(w.err) == nil` and the `fmt.Formatter` assertion
on the inner error: when the inner is a root and not a formatter it
writes a newline, the inner's `%+v`, the own stack, a newline; otherwise
the own stack, a newline, the inner's `%+v`, a newline; `%v`/`%s`/`%q`
write `w.Error()`.  The `withMessage` case is modelled from the spec
(extended form is the short form with the inner's extended form beneath
it).  A formatter external writes its declared text; a plain external
gets the `fmt` fallback for error values (its `Error()` string, quoted
under `%q`). -/
def GoError.Format (R : Resolver) : GoError → FmtState → ErrVerb → FmtState
  | .fundamental msg st, s, .plusV => stackFormatPlusV R st (writeString s msg)
  | .fundamental msg _, s, .q => writeString s (goQuote msg)
  | .fundamental msg _, s, _ => writeString s msg
  | .wrappedError err msg st, s, .plusV =>
    let s1 := writeString s msg
    if (errorsUnwrap err).isNone && !(isFormatter err) then
      writeString (stackFormatPlusV R st (GoError.Format R err (writeString s1 "\n") .plusV)) "\n"
    else
      writeString (GoError.Format R err (writeString (stackFormatPlusV R st s1) "\n") .plusV) "\n"
  | .wrappedError err msg st, s, _ =>
    writeString s (GoError.Error (.wrappedError err msg st))
  | .withMessage err msg, s, .plusV =>
    GoError.Format R err (writeString (writeString s (GoError.Error (.withMessage err msg))) "\n") .plusV
  | .withMessage err msg, s, _ =>
    writeString s (GoError.Error (.withMessage err msg))
  | .external _ (some f) _, s, .s => writeString s f.forS
  | .external _ (some f) _, s, .v => writeString s f.forV
  | .external _ (some f) _, s, .plusV => writeString s f.forPlusV
  | .external _ (some f) _, s, .q => writeString s f.forQ
  | .external msg none _, s, .q => writeString s (goQuote msg)
  | .external msg none _, s, _ => writeString s msg

/-- Rendering an error with a verb into an empty buffer: the text
`fmt.Sprintf` would produce. -/
def fmtStr (R : Resolver) (e : GoError) (vb : ErrVerb) : String :=
  GoError.Format R e "" vb

/-- Modelled from the spec: the capture side of the AddressResolver.
`fullStack` is what `callers()` returns (a full capture skipping the two
innermost frames, generous maximum depth); `topFrame` is the single
address `topCaller()` returns (the immediate caller of the entry
point).  Both live in the repository's stack file, outside these
sources. -/
structure CaptureEnv where
  fullStack : List Nat
  topFrame : Nat

/-- The `New` entry point: a `fundamental` with the message verbatim and
a full stack capture. -/
def New (env : CaptureEnv) (message : String) : GoError :=
  .fundamental message env.fullStack

/-- The `Errorf` entry point; the host formatting of format and args is
out of scope and enters as the already-formatted message. -/
def Errorf (env : CaptureEnv) (formatted : String) : GoError :=
  .fundamental formatted env.fullStack

/-- The `Wrap` entry point: `nil` propagates; the messages are joined
with a newline; if the inner error already implements `fmt.Formatter`
only the top frame is captured, otherwise a full stack. -/
def Wrap (env : CaptureEnv) (err : Option GoError) (messages : List String) : Option GoError :=
  match err with
  | none => none
  | some e =>
    let message := String.intercalate "\n" messages
    if isFormatter e then
      some (.wrappedError e message [env.topFrame])
    else
      some (.wrappedError e message env.fullStack)

/-- The `Wrapf` entry point: as `Wrap` but with a single formatted
message (the host formatting of format and args is out of scope and
enters as the already-formatted string). -/
def Wrapf (env : CaptureEnv) (err : Option GoError) (formatted : String) : Option GoError :=
  match err with
  | none => none
  | some e =>
    if isFormatter e then
      some (.wrappedError e formatted [env.topFrame])
    else
      some (.wrappedError e formatted env.fullStack)

/-- Modelled from the spec: the `WithMessage` entry point (called by
`ExampleWithMessage` but not among these sources): attaches a message to
the inner error with no stack capture at all; absent propagates. -/
def WithMessage (err : Option GoError) (message : String) : Option GoError :=
  match err with
  | none => none
  | some e => some (.withMessage e message)

/-- Whether an error node carries a captured stack of its own. -/
def hasOwnStack : GoError → Bool
  | .fundamental _ _ => true
  | .wrappedError _ _ _ => true
  | .withMessage _ _ => false
  | .external _ _ _ => false

/-- Pure, buffer-free description of the text each `Format` method
appends; used to factor the rendering proofs. -/
def renderE (R : Resolver) : GoError → ErrVerb → String
  | .fundamental msg st, .plusV => msg ++ stackPlusStr R st
  | .fundamental msg _, .q => goQuote msg
  | .fundamental msg _, _ => msg
  | .wrappedError err msg st, .plusV =>
    if (errorsUnwrap err).isNone && !(isFormatter err) then
      msg ++ "\n" ++ renderE R err .plusV ++ stackPlusStr R st ++ "\n"
    else
      msg ++ stackPlusStr R st ++ "\n" ++ renderE R err .plusV ++ "\n"
  | .wrappedError err msg st, _ => GoError.Error (.wrappedError err msg st)
  | .withMessage err msg, .plusV =>
    GoError.Error (.withMessage err msg) ++ "\n" ++ renderE R err .plusV
  | .withMessage err msg, _ => GoError.Error (.withMessage err msg)
  | .external _ (some f) _, .s => f.forS
  | .external _ (some f) _, .v => f.forV
  | .external _ (some f) _, .plusV => f.forPlusV
  | .external _ (some f) _, .q => f.forQ
  | .external msg none _, .q => goQuote msg
  | .external msg none _, _ => msg

theorem stackFormatPlusV_eq (R : Resolver) (st : List Nat) (s : FmtState) :
    stackFormatPlusV R st s = s ++ stackPlusStr R st := by
  induction st generalizing s with
  | nil => simp [stackFormatPlusV, stackPlusStr]
  | cons pc rest ih =>
    simp only [stackFormatPlusV, List.foldl_cons] at *
    rw [ih]
    simp [stackPlusStr, writeString, String.append_assoc]

theorem Format_eq (R : Resolver) :
    ∀ (e : GoError) (s : FmtState) (vb : ErrVerb),
      GoError.Format R e s vb = s ++ renderE R e vb
  | .fundamental msg st, s, vb => by
    cases vb <;>
      simp [GoError.Format, renderE, writeString, stackFormatPlusV_eq, String.append_assoc]
  | .wrappedError err msg st, s, .plusV => by
    have ih := Format_eq R err
    simp only [GoError.Format, renderE]
    cases h : (errorsUnwrap err).isNone && !(isFormatter err) <;>
      simp [h, ih, writeString, stackFormatPlusV_eq, String.append_assoc]
  | .wrappedError err msg st, s, .s => rfl
  | .wrappedError err msg st, s, .v => rfl
  | .wrappedError err msg st, s, .q => rfl
  | .withMessage err msg, s, .plusV => by
    have ih := Format_eq R err
    simp [GoError.Format, renderE, ih, writeString, String.append_assoc]
  | .withMessage err msg, s, .s => rfl
  | .withMessage err msg, s, .v => rfl
  | .withMessage err msg, s, .q => rfl
  | .external msg (some f) t, s, vb => by cases vb <;> rfl
  | .external msg none t, s, vb => by cases vb <;> rfl

theorem fmtStr_eq (R : Resolver) (e : GoError) (vb : ErrVerb) :
    fmtStr R e vb = renderE R e vb := by
  simp [fmtStr, Format_eq]

/-- The detailed (`%+v`) rendering of a `wrappedError` exactly as claim
C1 words it: in the non-root-or-self-formatting branch the own stack, a
newline, then the inner's detailed rendering, with no trailing newline.
Stated from the claim's words, to be compared with the source
rendering. -/
def claimedWrappedDetailed (R : Resolver) (err : GoError) (msg : String) (st : List Nat) : String :=
  if (errorsUnwrap err).isNone && !(isFormatter err) then
    msg ++ "\n" ++ fmtStr R err .plusV ++ stackPlusStr R st ++ "\n"
  else
    msg ++ stackPlusStr R st ++ "\n" ++ fmtStr R err .plusV

/-- C1 (counterexample): wrapping a self-formatting error and rendering
with the detailed verb emits a trailing newline after the inner's
detailed rendering, which the claim's second branch omits. -/
theorem wrappedError_detailed_claim_refuted :
    fmtStr ⟨fun _ => none⟩
        (.wrappedError (.external "x" (some ⟨"x", "x", "+v x", "q x"⟩) none) "m" []) .plusV ≠
      claimedWrappedDetailed ⟨fun _ => none⟩
        (.external "x" (some ⟨"x", "x", "+v x", "q x"⟩) none) "m" [] := by
  decide

/-- C1 (amended): a `wrappedError` rendered with the detailed verb first
emits its own message; if the inner error has no further unwrap target
and is not a `fmt.Formatter`, it emits a newline, the inner's detailed
rendering, its own captured stack trace and a trailing newline; otherwise
it emits its own captured stack trace, a newline, the inner's detailed
rendering, and a trailing newline. -/
theorem wrappedError_detailed_form (R : Resolver) (err : GoError) (msg : String) (st : List Nat) :
    fmtStr R (.wrappedError err msg st) .plusV =
      msg ++
        (if (errorsUnwrap err).isNone && !(isFormatter err) then
          "\n" ++ fmtStr R err .plusV ++ stackPlusStr R st ++ "\n"
        else
          stackPlusStr R st ++ "\n" ++ fmtStr R err .plusV ++ "\n") := by
  cases h : (errorsUnwrap err).isNone && !(isFormatter err) <;>
    simp [fmtStr_eq, renderE, h, String.append_assoc]

/-- C2: for a present inner error, `Wrap` and `Wrapf` capture the single
top frame exactly when the inner error implements `fmt.Formatter`, and
otherwise the same full capture `New` records. -/
theorem wrap_stack_capture_policy (env : CaptureEnv) (e : GoError)
    (messages : List String) (formatted : String) (message : String) :
    Wrap env (some e) messages =
      some (.wrappedError e (String.intercalate "\n" messages)
        (if isFormatter e then [env.topFrame] else env.fullStack))
    ∧ Wrapf env (some e) formatted =
      some (.wrappedError e formatted
        (if isFormatter e then [env.topFrame] else env.fullStack))
    ∧ New env message = .fundamental message env.fullStack := by
  refine ⟨?_, ?_, rfl⟩ <;> cases h : isFormatter e <;> simp [Wrap, Wrapf, h]

/-- C3: the short form of a `wrappedError` is its message, a colon and a
space, then the inner error's short string, recursively; in particular
the triple wrap of `New "X"` renders as "outer: middle: inner: X". -/
theorem wrappedError_short_form (R : Resolver) (env : CaptureEnv)
    (err : GoError) (msg : String) (st : List Nat) :
    fmtStr R (.wrappedError err msg st) .s = msg ++ ": " ++ err.Error
    ∧ fmtStr R (.wrappedError err msg st) .v = msg ++ ": " ++ err.Error
    ∧ (Wrap env (Wrap env (Wrap env (some (New env "X")) ["inner"]) ["middle"]) ["outer"]).map
        (fun e => fmtStr R e .v) = some "outer: middle: inner: X" := by
  refine ⟨?_, ?_, ?_⟩
  · simp [fmtStr_eq, renderE, GoError.Error]
  · simp [fmtStr_eq, renderE, GoError.Error]
  · rfl

/-- C4: wrapping an absent error is a no-op: `Wrap` and `Wrapf` return
absent for every message list and every formatted message. -/
theorem wrap_absent_noop (env : CaptureEnv) (messages : List String) (formatted : String) :
    Wrap env none messages = none ∧ Wrapf env none formatted = none :=
  ⟨rfl, rfl⟩

/-- C5: unwrapping one level of `Wrap` around a present inner error
returns exactly that inner error. -/
theorem unwrap_wrap_identity (env : CaptureEnv) (inner : GoError) (messages : List String) :
    (Wrap env (some inner) messages).bind errorsUnwrap = some inner := by
  cases h : isFormatter inner <;> simp [Wrap, h, errorsUnwrap]

/-- C6: `WithMessage` attaches a message with no stack capture, returns
absent for an absent inner error, and its short form is the message, a
colon and a space, then the inner's short form; in particular wrapping
`New "whoops"` with "oh noes" renders in short form as
"oh noes: whoops". -/
theorem withMessage_behaviour (R : Resolver) (env : CaptureEnv) (err : GoError) (msg : String) :
    WithMessage none msg = none
    ∧ hasOwnStack (.withMessage err msg) = false
    ∧ fmtStr R (.withMessage err msg) .v = msg ++ ": " ++ err.Error
    ∧ (WithMessage (some (New env "whoops")) "oh noes").map (fun e => fmtStr R e .v) =
        some "oh noes: whoops" := by
  refine ⟨rfl, rfl, ?_, rfl⟩
  simp [fmtStr_eq, renderE, GoError.Error]

/-- C7: rendering the sentinel/zero Frame address never fails and
degrades gracefully: the name verb yields the empty string, the source
verbs yield "unknown", the line verb yields 0 and the composite verb
yields "unknown:0". -/
theorem frame_sentinel_format (R : Resolver) :
    frameFormat R 0 .n = ""
    ∧ frameFormat R 0 .s = "unknown"
    ∧ frameFormat R 0 .plusS = "unknown"
    ∧ frameFormat R 0 .d = "0"
    ∧ frameFormat R 0 .v = "unknown:0" := by
  have hl : frameLine R 0 = 0 := rfl
  have hf : frameFile R 0 = "unknown" := rfl
  refine ⟨rfl, rfl, rfl, ?_, ?_⟩
  · show toString (frameLine R 0) = "0"
    rw [hl]
    exact rfl
  · show pathBase (frameFile R 0) ++ ":" ++ toString (frameLine R 0) = "unknown:0"
    rw [hl, hf]
    exact rfl

/-- C8: a zero-length StackTrace renders as the empty-list marker "[]"
under the plain verbs and as the empty string under the detailed verb,
with no frames and no leading newline. -/
theorem stacktrace_empty_format (R : Resolver) :
    stackTraceFormat R [] .s = "[]"
    ∧ stackTraceFormat R [] .v = "[]"
    ∧ stackTraceFormat R [] .plusV = "" :=
  ⟨rfl, rfl, rfl⟩

/-- C9: rendering is deterministic and advances no hidden state: what a
`Format` call appends to the output buffer does not depend on the buffer
contents, and rendering the same error value twice with the same verb
appends two identical copies of the same text. -/
theorem render_deterministic (R : Resolver) (e : GoError) (vb : ErrVerb) (s : FmtState) :
    GoError.Format R e s vb = s ++ fmtStr R e vb
    ∧ GoError.Format R e (GoError.Format R e s vb) vb = s ++ fmtStr R e vb ++ fmtStr R e vb := by
  refine ⟨?_, ?_⟩ <;> simp [Format_eq, fmtStr_eq, String.append_assoc]

/-- C10: the quoted verb quotes a `fundamental` message but leaves a
`wrappedError` unquoted: the latter renders the same colon-joined short
chain as the plain string verb. -/
theorem quoted_verb_asymmetry (R : Resolver) (msg : String) (st : List Nat)
    (err : GoError) (m : String) (st2 : List Nat) :
    fmtStr R (.fundamental msg st) .q = goQuote msg
    ∧ fmtStr R (.wrappedError err m st2) .q = fmtStr R (.wrappedError err m st2) .s
    ∧ fmtStr R (.wrappedError err m st2) .s = GoError.Error (.wrappedError err m st2)
    ∧ fmtStr R (.fundamental "whoops" []) .q = "\"whoops\"" := by
  refine ⟨?_, ?_, ?_, rfl⟩ <;> simp [fmtStr_eq, renderE]
